import Mathlib

/-!
Shallow embedding of the bpfbench in-kernel event-accounting engine
(`src/unnamed/part_001`, the most defensive revision of the BPF program:
the earlier revisions `src/unnamed/part_000` and `src/src/bpf/bpf_program.c`
omit some of its guards, and the design documentation designates the most
defensive variant as authoritative).

Machine integers (`u64`, `u32`, `long`) are modelled as `Nat`/`Int` with
explicit `% 2^64` where overflow matters.  The per-processor BPF array maps
(`BPF_PERCPU_ARRAY`) are modelled as total functions together with a partial
lookup mirroring the in-bounds check performed by the kernel; the shared
`BPF_HASH children` map is a `Finset Nat` of thread-group ids.  Each hook
body is a pure function from the pre-state and the event data to the
post-state, and a system-wide small-step function folds hook invocations
over an event trace.
-/

namespace BpfBench

/-- Modulus of 64-bit unsigned arithmetic. -/
def U64 : Nat := 2 ^ 64

/-- Wrapping 64-bit addition. -/
def u64add (a b : Nat) : Nat := (a + b) % U64

/-- Wrapping 64-bit subtraction (`a - b` as computed on `u64`). -/
def u64sub (a b : Nat) : Nat := (a + (U64 - b % U64)) % U64

/-- The process (thread-group) id half of a `pid_tgid` word: `pid_tgid >> 32`. -/
def pidOf (pid_tgid : Nat) : Nat := pid_tgid >>> 32

/-- `__NR_restart_syscall` from `uapi/asm/unistd_64.h` (x86-64). -/
def NR_restart_syscall : Nat := 219

/-- Kernel-internal restart sentinel `ERESTARTSYS`. -/
def ERESTARTSYS : Int := 512

/-- Kernel-internal restart sentinel `ERESTARTNOINTR`. -/
def ERESTARTNOINTR : Int := 513

/-- Kernel-internal restart sentinel `ERESTARTNOHAND`. -/
def ERESTARTNOHAND : Int := 514

/-- Kernel-internal restart sentinel `ERESTART_RESTARTBLOCK`. -/
def ERESTART_RESTARTBLOCK : Int := 516

/-- Build-time configuration of the BPF program: `TRACE_PID` (absent when the
macro is undefined), the `FOLLOW` flag, `BPFBENCH_PID`, and `NUM_SYSCALLS`. -/
structure Config where
  tracePid : Option Nat
  follow : Bool
  bpfbenchPid : Nat
  numSyscalls : Nat

/-- `struct intermediate_t`: the per-processor scratch slot. -/
structure Intermediate where
  pid_tgid : Nat
  start_time : Nat
deriving DecidableEq

/-- `struct data_t`: one per-syscall counter record. -/
structure Data where
  count : Nat
  overhead : Nat
deriving DecidableEq

/-- One processor's replica of the two `BPF_PERCPU_ARRAY` maps:
`intermediate` (size 1, so a single record) and `syscalls`
(size `NUM_SYSCALLS`; entries at out-of-range indices are never addressable
through the modelled lookup). -/
structure CPUState where
  intermediate : Intermediate
  syscalls : Nat → Data

/-- `intermediate.lookup(&idx)`: the BPF array lookup succeeds exactly when
the index is within the array's size, which is 1. -/
def intermediateLookup (st : CPUState) (idx : Nat) : Option Intermediate :=
  if idx < 1 then some st.intermediate else none

/-- `syscalls.lookup(&syscall)`: succeeds exactly when the syscall number is
within the array's size `NUM_SYSCALLS`. -/
def syscallsLookup (cfg : Config) (st : CPUState) (syscall : Nat) : Option Data :=
  if syscall < cfg.numSyscalls then some (st.syscalls syscall) else none

/-- The scope filter of `do_sysenter` (lines 84-102 of the source): the
`TRACE_PID`/`FOLLOW` pid filter followed by the `BPFBENCH_PID`
self-exclusion check.  `true` means the event is discarded. -/
def enterScopeDiscard (cfg : Config) (children : Finset Nat) (pid_tgid : Nat) : Bool :=
  (match cfg.tracePid with
   | some tracePid =>
       if cfg.follow then
         decide (pidOf pid_tgid ≠ tracePid ∧ pidOf pid_tgid ∉ children)
       else
         decide (pid_tgid >>> 32 ≠ tracePid)
   | none => false)
  || decide (pid_tgid >>> 32 = cfg.bpfbenchPid)

/-- The scope filter of `do_sysexit` (lines 137-155 of the source),
transcribed from that function's own filter block: the `TRACE_PID`/`FOLLOW`
pid filter followed by the `BPFBENCH_PID` self-exclusion check.  `true`
means the event is discarded. -/
def exitScopeDiscard (cfg : Config) (children : Finset Nat) (pid_tgid : Nat) : Bool :=
  (match cfg.tracePid with
   | some tracePid =>
       if cfg.follow then
         decide (pidOf pid_tgid ≠ tracePid ∧ pidOf pid_tgid ∉ children)
       else
         decide (pid_tgid >>> 32 ≠ tracePid)
   | none => false)
  || decide (pid_tgid >>> 32 = cfg.bpfbenchPid)

/-- `do_sysenter` (lines 80-118 of the source): apply the scope filter, look
up the scratch slot at the fixed index 0, and on success overwrite it with
the caller's `pid_tgid` and the current time `now` (`bpf_ktime_get_ns()`). -/
def do_sysenter (cfg : Config) (children : Finset Nat) (st : CPUState)
    (pid_tgid now : Nat) : CPUState :=
  if enterScopeDiscard cfg children pid_tgid then st
  else
    match intermediateLookup st 0 with
    | none => st
    | some _ =>
        { st with intermediate := { pid_tgid := pid_tgid, start_time := now } }

/-- `do_sysexit` (lines 120-178 of the source): discard the restart
pseudo-call, discard will-restart sentinel returns, apply the scope filter,
look up the counter record and the scratch slot; when both are present and
the caller identity matches the slot, credit the counter; afterwards, when
the slot is present, clear it to zero. -/
def do_sysexit (cfg : Config) (children : Finset Nat) (st : CPUState)
    (syscall : Nat) (ret : Int) (pid_tgid now : Nat) : CPUState :=
  if syscall = NR_restart_syscall then st
  else if ret = -ERESTARTSYS ∨ ret = -ERESTARTNOHAND ∨ ret = -ERESTARTNOINTR
      ∨ ret = -ERESTART_RESTARTBLOCK then st
  else if exitScopeDiscard cfg children pid_tgid then st
  else
    match intermediateLookup st 0, syscallsLookup cfg st syscall with
    | some start, some data =>
        if pid_tgid ≠ start.pid_tgid then st
        else
          { intermediate := { pid_tgid := 0, start_time := 0 },
            syscalls := fun n =>
              if n = syscall then
                { count := u64add data.count 1,
                  overhead := u64add data.overhead (u64sub now start.start_time) }
              else st.syscalls n }
    | some _, none =>
        { st with intermediate := { pid_tgid := 0, start_time := 0 } }
    | none, _ => st

/-- `sched_process_fork` (lines 42-62 of the source, compiled under
`FOLLOW`): when the parent's tgid is `TRACE_PID` or a member of `children`,
insert the child's tgid. -/
def sched_process_fork (tracePid : Nat) (children : Finset Nat)
    (ppid cpid : Nat) : Finset Nat :=
  if ppid ≠ tracePid ∧ ppid ∉ children then children
  else insert cpid children

/-- `sched_process_exit` (lines 64-77 of the source, compiled under
`FOLLOW`): when the terminating task's tgid is `TRACE_PID` or a member of
`children`, delete it. -/
def sched_process_exit (tracePid : Nat) (children : Finset Nat)
    (pid_tgid : Nat) : Finset Nat :=
  if pidOf pid_tgid ≠ tracePid ∧ pidOf pid_tgid ∉ children then children
  else children.erase (pidOf pid_tgid)

/-- Kernel events delivered to the attached hooks.  `sysEnter`/`sysExit`
carry the processor that executes the hook, the caller's `pid_tgid`, and the
value `bpf_ktime_get_ns()` reads during the hook; `sysExit` additionally
carries `args->id` and `args->ret`; `schedFork` carries the parent's and the
child's tgid; `schedExit` carries the terminating task's `pid_tgid`. -/
inductive Event where
  | sysEnter (cpu pid_tgid now : Nat)
  | sysExit (cpu : Nat) (syscall : Nat) (ret : Int) (pid_tgid now : Nat)
  | schedFork (ppid cpid : Nat)
  | schedExit (pid_tgid : Nat)
deriving DecidableEq

/-- The whole engine state: every processor's replica plus the shared
`children` hash map. -/
structure SysState where
  cpus : Nat → CPUState
  children : Finset Nat

/-- A freshly created per-processor replica: BPF array maps are
zero-initialized. -/
def initCPU : CPUState :=
  { intermediate := { pid_tgid := 0, start_time := 0 },
    syscalls := fun _ => { count := 0, overhead := 0 } }

/-- Engine state right after attach: zeroed replicas, empty `children`. -/
def initState : SysState :=
  { cpus := fun _ => initCPU, children := ∅ }

/-- One hook invocation.  Syscall hooks run on the event's processor and
touch only that processor's replica; the fork/exit membership hooks are
attached only in `FOLLOW` builds (which also define `TRACE_PID`). -/
def step (cfg : Config) (s : SysState) : Event → SysState
  | Event.sysEnter cpu pid_tgid now =>
      { s with cpus := fun c =>
          if c = cpu then do_sysenter cfg s.children (s.cpus cpu) pid_tgid now
          else s.cpus c }
  | Event.sysExit cpu syscall ret pid_tgid now =>
      { s with cpus := fun c =>
          if c = cpu then do_sysexit cfg s.children (s.cpus cpu) syscall ret pid_tgid now
          else s.cpus c }
  | Event.schedFork ppid cpid =>
      match cfg.follow, cfg.tracePid with
      | true, some tracePid =>
          { s with children := sched_process_fork tracePid s.children ppid cpid }
      | _, _ => s
  | Event.schedExit pid_tgid =>
      match cfg.follow, cfg.tracePid with
      | true, some tracePid =>
          { s with children := sched_process_exit tracePid s.children pid_tgid }
      | _, _ => s

/-- Run the engine over a trace of events. -/
def run (cfg : Config) (s : SysState) : List Event → SysState
  | [] => s
  | e :: es => run cfg (step cfg s e) es

/-- The exact condition under which `do_sysexit` reaches its credit step:
no guard discards the event, the counter lookup succeeds, and the caller's
identity matches the scratch slot's recorded identity. -/
def sysexitCredits (cfg : Config) (children : Finset Nat) (st : CPUState)
    (syscall : Nat) (ret : Int) (pid_tgid : Nat) : Bool :=
  !(decide (syscall = NR_restart_syscall))
  && !(decide (ret = -ERESTARTSYS ∨ ret = -ERESTARTNOHAND ∨ ret = -ERESTARTNOINTR
        ∨ ret = -ERESTART_RESTARTBLOCK))
  && !(exitScopeDiscard cfg children pid_tgid)
  && decide (syscall < cfg.numSyscalls)
  && decide (pid_tgid = st.intermediate.pid_tgid)

/-- Does this event credit a syscall on processor `c` for caller identity
`p` when fired in state `s`? -/
def isCreditAt (cfg : Config) (s : SysState) (c p : Nat) : Event → Bool
  | Event.sysExit cpu syscall ret pid_tgid _ =>
      decide (cpu = c) && decide (pid_tgid = p)
        && sysexitCredits cfg s.children (s.cpus cpu) syscall ret pid_tgid
  | _ => false

/-- Is this event a syscall-entry event on processor `c` with caller
identity `p`? -/
def isEnterAt (c p : Nat) : Event → Bool
  | Event.sysEnter cpu pid_tgid _ => decide (cpu = c) && decide (pid_tgid = p)
  | _ => false

/-- Number of events of the trace that credit a syscall on processor `c`
for caller identity `p`, running the engine from `s`. -/
def creditCount (cfg : Config) (s : SysState) (c p : Nat) : List Event → Nat
  | [] => 0
  | e :: es =>
      (if isCreditAt cfg s c p e then 1 else 0) + creditCount cfg (step cfg s e) c p es

/-- Number of syscall-entry events of the trace on processor `c` with
caller identity `p`. -/
def entryCount (c p : Nat) (es : List Event) : Nat :=
  (es.filter (isEnterAt c p)).length

/-- 1 when processor `c`'s scratch slot currently records caller identity
`p`, else 0: the potential used to bound credits by entries. -/
def slotFlag (c p : Nat) (s : SysState) : Nat :=
  if (s.cpus c).intermediate.pid_tgid = p then 1 else 0

/-- A system-wide configuration used as a concrete fixture: no `TRACE_PID`,
no `FOLLOW`, tool pid 1, four syscalls. -/
def cfgSys : Config :=
  { tracePid := none, follow := false, bpfbenchPid := 1, numSyscalls := 4 }

/-- A tree-following configuration used as a concrete fixture: root pid 5,
tool pid 1, four syscalls. -/
def cfgFollow : Config :=
  { tracePid := some 5, follow := true, bpfbenchPid := 1, numSyscalls := 4 }

/-- A concrete per-processor replica whose scratch slot records the caller
with tgid 2 (pid_tgid `2 <<< 32`) started at time 5, all counters zero. -/
def stW : CPUState :=
  { intermediate := { pid_tgid := 2 <<< 32, start_time := 5 },
    syscalls := fun _ => { count := 0, overhead := 0 } }

/-- A concrete engine state whose every processor replica is `stW`. -/
def sW : SysState := { cpus := fun _ => stW, children := ∅ }

/-! ### Basic lemmas about the hook bodies -/

theorem intermediateLookup_zero (st : CPUState) :
    intermediateLookup st 0 = some st.intermediate := rfl

theorem sysexitCredits_spec {cfg : Config} {ch : Finset Nat} {st : CPUState}
    {syscall : Nat} {ret : Int} {pid_tgid : Nat}
    (h : sysexitCredits cfg ch st syscall ret pid_tgid = true) :
    syscall ≠ NR_restart_syscall
    ∧ ¬(ret = -ERESTARTSYS ∨ ret = -ERESTARTNOHAND ∨ ret = -ERESTARTNOINTR
        ∨ ret = -ERESTART_RESTARTBLOCK)
    ∧ exitScopeDiscard cfg ch pid_tgid = false
    ∧ syscall < cfg.numSyscalls
    ∧ pid_tgid = st.intermediate.pid_tgid := by
  simp only [sysexitCredits, Bool.and_eq_true, Bool.not_eq_true',
    decide_eq_true_eq, decide_eq_false_iff_not] at h
  tauto

theorem do_sysexit_main_cases (cfg : Config) (ch : Finset Nat) (st : CPUState)
    (syscall : Nat) (ret : Int) (pid_tgid now : Nat) :
    (sysexitCredits cfg ch st syscall ret pid_tgid = true
      ∧ do_sysexit cfg ch st syscall ret pid_tgid now =
        { intermediate := { pid_tgid := 0, start_time := 0 },
          syscalls := fun n =>
            if n = syscall then
              { count := u64add (st.syscalls syscall).count 1,
                overhead := u64add (st.syscalls syscall).overhead
                  (u64sub now st.intermediate.start_time) }
            else st.syscalls n })
    ∨ (sysexitCredits cfg ch st syscall ret pid_tgid = false
      ∧ do_sysexit cfg ch st syscall ret pid_tgid now = st)
    ∨ (sysexitCredits cfg ch st syscall ret pid_tgid = false
      ∧ ¬ syscall < cfg.numSyscalls
      ∧ do_sysexit cfg ch st syscall ret pid_tgid now =
          { st with intermediate := { pid_tgid := 0, start_time := 0 } }) := by
  by_cases h1 : syscall = NR_restart_syscall
  · refine Or.inr (Or.inl ⟨by simp [sysexitCredits, h1], ?_⟩)
    unfold do_sysexit
    rw [if_pos h1]
  by_cases h2 : ret = -ERESTARTSYS ∨ ret = -ERESTARTNOHAND ∨ ret = -ERESTARTNOINTR
      ∨ ret = -ERESTART_RESTARTBLOCK
  · refine Or.inr (Or.inl ⟨by simp [sysexitCredits, h2], ?_⟩)
    unfold do_sysexit
    rw [if_neg h1, if_pos h2]
  by_cases h3 : exitScopeDiscard cfg ch pid_tgid = true
  · refine Or.inr (Or.inl ⟨by simp [sysexitCredits, h3], ?_⟩)
    unfold do_sysexit
    rw [if_neg h1, if_neg h2, if_pos h3]
  by_cases h4 : syscall < cfg.numSyscalls
  · by_cases h5 : pid_tgid = st.intermediate.pid_tgid
    · refine Or.inl ⟨?_, ?_⟩
      · simp only [sysexitCredits, Bool.and_eq_true, Bool.not_eq_true',
          decide_eq_true_eq, decide_eq_false_iff_not]
        exact ⟨⟨⟨⟨h1, h2⟩, by simpa using h3⟩, h4⟩, h5⟩
      · unfold do_sysexit
        rw [if_neg h1, if_neg h2, if_neg h3, intermediateLookup_zero]
        simp only [syscallsLookup, if_pos h4]
        rw [if_neg (by simpa using h5)]
    · refine Or.inr (Or.inl ⟨by simp [sysexitCredits, h5], ?_⟩)
      unfold do_sysexit
      rw [if_neg h1, if_neg h2, if_neg h3, intermediateLookup_zero]
      simp only [syscallsLookup, if_pos h4]
      rw [if_pos (by simpa using h5)]
  · refine Or.inr (Or.inr ⟨by simp [sysexitCredits, h4], h4, ?_⟩)
    unfold do_sysexit
    rw [if_neg h1, if_neg h2, if_neg h3, intermediateLookup_zero]
    simp only [syscallsLookup, if_neg h4]

theorem do_sysexit_credit {cfg : Config} {ch : Finset Nat} {st : CPUState}
    {syscall : Nat} {ret : Int} {pid_tgid : Nat} (now : Nat)
    (h : sysexitCredits cfg ch st syscall ret pid_tgid = true) :
    do_sysexit cfg ch st syscall ret pid_tgid now =
      { intermediate := { pid_tgid := 0, start_time := 0 },
        syscalls := fun n =>
          if n = syscall then
            { count := u64add (st.syscalls syscall).count 1,
              overhead := u64add (st.syscalls syscall).overhead
                (u64sub now st.intermediate.start_time) }
          else st.syscalls n } := by
  rcases do_sysexit_main_cases cfg ch st syscall ret pid_tgid now with
    ⟨_, he⟩ | ⟨hf, _⟩ | ⟨hf, _, _⟩
  · exact he
  · rw [h] at hf; cases hf
  · rw [h] at hf; cases hf

theorem do_sysexit_nocredit_syscalls {cfg : Config} {ch : Finset Nat}
    {st : CPUState} {syscall : Nat} {ret : Int} {pid_tgid : Nat} (now : Nat)
    (h : sysexitCredits cfg ch st syscall ret pid_tgid = false) (n : Nat) :
    (do_sysexit cfg ch st syscall ret pid_tgid now).syscalls n = st.syscalls n := by
  rcases do_sysexit_main_cases cfg ch st syscall ret pid_tgid now with
    ⟨ht, _⟩ | ⟨_, he⟩ | ⟨_, _, he⟩
  · rw [h] at ht; cases ht
  · rw [he]
  · rw [he]

theorem do_sysexit_intermediate_cases (cfg : Config) (ch : Finset Nat)
    (st : CPUState) (syscall : Nat) (ret : Int) (pid_tgid now : Nat) :
    (do_sysexit cfg ch st syscall ret pid_tgid now).intermediate = st.intermediate
    ∨ (do_sysexit cfg ch st syscall ret pid_tgid now).intermediate
        = { pid_tgid := 0, start_time := 0 } := by
  rcases do_sysexit_main_cases cfg ch st syscall ret pid_tgid now with
    ⟨_, he⟩ | ⟨_, he⟩ | ⟨_, _, he⟩
  · rw [he]; exact Or.inr rfl
  · rw [he]; exact Or.inl rfl
  · rw [he]; exact Or.inr rfl

theorem do_sysexit_of_restart {cfg : Config} {ch : Finset Nat} {st : CPUState}
    {syscall : Nat} (ret : Int) (pid_tgid now : Nat)
    (h : syscall = NR_restart_syscall) :
    do_sysexit cfg ch st syscall ret pid_tgid now = st := by
  unfold do_sysexit
  rw [if_pos h]

theorem do_sysexit_of_scope {cfg : Config} {ch : Finset Nat} {st : CPUState}
    (syscall : Nat) (ret : Int) {pid_tgid : Nat} (now : Nat)
    (h : exitScopeDiscard cfg ch pid_tgid = true) :
    do_sysexit cfg ch st syscall ret pid_tgid now = st := by
  by_cases h1 : syscall = NR_restart_syscall
  · exact do_sysexit_of_restart ret pid_tgid now h1
  by_cases h2 : ret = -ERESTARTSYS ∨ ret = -ERESTARTNOHAND ∨ ret = -ERESTARTNOINTR
      ∨ ret = -ERESTART_RESTARTBLOCK
  · unfold do_sysexit
    rw [if_neg h1, if_pos h2]
  · unfold do_sysexit
    rw [if_neg h1, if_neg h2, if_pos h]

theorem do_sysenter_of_discard {cfg : Config} {ch : Finset Nat} {st : CPUState}
    {pid_tgid : Nat} (now : Nat) (h : enterScopeDiscard cfg ch pid_tgid = true) :
    do_sysenter cfg ch st pid_tgid now = st := by
  unfold do_sysenter
  rw [if_pos h]

theorem do_sysenter_of_pass {cfg : Config} {ch : Finset Nat} {st : CPUState}
    {pid_tgid : Nat} (now : Nat) (h : enterScopeDiscard cfg ch pid_tgid = false) :
    do_sysenter cfg ch st pid_tgid now =
      { st with intermediate := { pid_tgid := pid_tgid, start_time := now } } := by
  unfold do_sysenter
  rw [if_neg (by simp [h]), intermediateLookup_zero]

theorem do_sysenter_syscalls (cfg : Config) (ch : Finset Nat) (st : CPUState)
    (pid_tgid now : Nat) :
    (do_sysenter cfg ch st pid_tgid now).syscalls = st.syscalls := by
  by_cases h : enterScopeDiscard cfg ch pid_tgid = true
  · rw [do_sysenter_of_discard now h]
  · rw [do_sysenter_of_pass now (by simpa using h)]

theorem do_sysenter_intermediate_cases (cfg : Config) (ch : Finset Nat)
    (st : CPUState) (pid_tgid now : Nat) :
    (do_sysenter cfg ch st pid_tgid now).intermediate = st.intermediate
    ∨ (do_sysenter cfg ch st pid_tgid now).intermediate.pid_tgid = pid_tgid := by
  by_cases h : enterScopeDiscard cfg ch pid_tgid = true
  · rw [do_sysenter_of_discard now h]; exact Or.inl rfl
  · rw [do_sysenter_of_pass now (by simpa using h)]; exact Or.inr rfl

/-! ### Lemmas about 64-bit arithmetic -/

theorem u64add_eq {a b : Nat} (h : a + b < U64) : u64add a b = a + b :=
  Nat.mod_eq_of_lt h

theorem u64sub_eq {a b : Nat} (hba : b ≤ a) (ha : a < U64) : u64sub a b = a - b := by
  have hb : b < U64 := lt_of_le_of_lt hba ha
  unfold u64sub
  rw [Nat.mod_eq_of_lt hb]
  have h1 : a + (U64 - b) = (a - b) + U64 := by omega
  rw [h1, Nat.add_mod_right, Nat.mod_eq_of_lt (by omega)]

/-! ### Lemmas about the system-wide step function -/

theorem step_children_sysEnter (cfg : Config) (s : SysState)
    (cpu pid_tgid now : Nat) :
    (step cfg s (Event.sysEnter cpu pid_tgid now)).children = s.children := rfl

theorem step_children_sysExit (cfg : Config) (s : SysState) (cpu syscall : Nat)
    (ret : Int) (pid_tgid now : Nat) :
    (step cfg s (Event.sysExit cpu syscall ret pid_tgid now)).children = s.children := rfl

theorem step_cpus_schedFork (cfg : Config) (s : SysState) (ppid cpid : Nat) :
    (step cfg s (Event.schedFork ppid cpid)).cpus = s.cpus := by
  unfold step
  rcases cfg.follow with _ | _ <;> rcases cfg.tracePid with _ | _ <;> rfl

theorem step_cpus_schedExit (cfg : Config) (s : SysState) (pid_tgid : Nat) :
    (step cfg s (Event.schedExit pid_tgid)).cpus = s.cpus := by
  unfold step
  rcases cfg.follow with _ | _ <;> rcases cfg.tracePid with _ | _ <;> rfl

theorem run_append (cfg : Config) (s : SysState) (l₁ l₂ : List Event) :
    run cfg s (l₁ ++ l₂) = run cfg (run cfg s l₁) l₂ := by
  induction l₁ generalizing s with
  | nil => rfl
  | cons e l ih => rw [List.cons_append, run, run, ih]

/-! ### Credits are bounded by entries: the potential argument -/

theorem slotFlag_le_one (c p : Nat) (s : SysState) : slotFlag c p s ≤ 1 := by
  unfold slotFlag
  split <;> omega

theorem slotFlag_eq_one {c p : Nat} {s : SysState}
    (h : (s.cpus c).intermediate.pid_tgid = p) : slotFlag c p s = 1 := by
  unfold slotFlag
  rw [if_pos h]

theorem flag_of_false : (if (false = true) then (1 : Nat) else 0) = 0 := rfl

theorem flag_of_true : (if (true = true) then (1 : Nat) else 0) = 1 := rfl

theorem credit_entry_step (cfg : Config) (c p : Nat) (hp : p ≠ 0)
    (s : SysState) (e : Event) :
    (if isCreditAt cfg s c p e then 1 else 0) + slotFlag c p (step cfg s e)
      ≤ (if isEnterAt c p e then 1 else 0) + slotFlag c p s := by
  cases e with
  | sysEnter cpu q t =>
      have hca : isCreditAt cfg s c p (Event.sysEnter cpu q t) = false := rfl
      have hst : (step cfg s (Event.sysEnter cpu q t)).cpus c
          = if c = cpu then do_sysenter cfg s.children (s.cpus cpu) q t
            else s.cpus c := rfl
      rw [hca, flag_of_false]
      by_cases hc : c = cpu
      · by_cases hqp : q = p
        · have hen : isEnterAt c p (Event.sysEnter cpu q t) = true := by
            simp [isEnterAt, hc, hqp]
          rw [hen, flag_of_true]
          have h1 := slotFlag_le_one c p (step cfg s (Event.sysEnter cpu q t))
          omega
        · have hen : isEnterAt c p (Event.sysEnter cpu q t) = false := by
            simp [isEnterAt, hqp]
          rw [hen, flag_of_false]
          have hA : slotFlag c p (step cfg s (Event.sysEnter cpu q t)) ≤ slotFlag c p s := by
            unfold slotFlag
            rw [hst, if_pos hc, hc]
            rcases do_sysenter_intermediate_cases cfg s.children (s.cpus cpu) q t with h | h
            · rw [h]
            · rw [if_neg (fun hcontra => hqp (h.symm.trans hcontra))]
              omega
          omega
      · have hen : isEnterAt c p (Event.sysEnter cpu q t) = false := by
          simp only [isEnterAt]
          rw [decide_eq_false (fun h => hc h.symm), Bool.false_and]
        have hA : slotFlag c p (step cfg s (Event.sysEnter cpu q t)) = slotFlag c p s := by
          unfold slotFlag
          rw [hst, if_neg hc]
        rw [hen, flag_of_false, hA]
  | sysExit cpu sc r q t =>
      have hen : isEnterAt c p (Event.sysExit cpu sc r q t) = false := rfl
      have hst : (step cfg s (Event.sysExit cpu sc r q t)).cpus c
          = if c = cpu then do_sysexit cfg s.children (s.cpus cpu) sc r q t
            else s.cpus c := rfl
      rw [hen, flag_of_false]
      by_cases hc : c = cpu
      · by_cases hcr : sysexitCredits cfg s.children (s.cpus cpu) sc r q = true
        · have hres := do_sysexit_credit t hcr
          have hA : slotFlag c p (step cfg s (Event.sysExit cpu sc r q t)) = 0 := by
            unfold slotFlag
            rw [hst, if_pos hc, hres]
            exact if_neg fun h => hp h.symm
          have hqslot : q = (s.cpus cpu).intermediate.pid_tgid :=
            (sysexitCredits_spec hcr).2.2.2.2
          by_cases hqp : q = p
          · have hB : slotFlag c p s = 1 :=
              slotFlag_eq_one (by rw [hc, ← hqslot, hqp])
            have hC : isCreditAt cfg s c p (Event.sysExit cpu sc r q t) = true := by
              simp only [isCreditAt]
              rw [decide_eq_true hc.symm, decide_eq_true hqp, hcr]
              rfl
            rw [hC, flag_of_true, hA, hB]
          · have hC : isCreditAt cfg s c p (Event.sysExit cpu sc r q t) = false := by
              simp only [isCreditAt]
              rw [decide_eq_false hqp, Bool.and_false, Bool.false_and]
            rw [hC, flag_of_false, hA]
            omega
        · have hcr' : sysexitCredits cfg s.children (s.cpus cpu) sc r q = false :=
            Bool.not_eq_true _ ▸ (by simpa using hcr)
          have hC : isCreditAt cfg s c p (Event.sysExit cpu sc r q t) = false := by
            simp only [isCreditAt]
            rw [hcr', Bool.and_false]
          rw [hC, flag_of_false]
          have hA : slotFlag c p (step cfg s (Event.sysExit cpu sc r q t)) ≤ slotFlag c p s := by
            unfold slotFlag
            rw [hst, if_pos hc, hc]
            rcases do_sysexit_intermediate_cases cfg s.children (s.cpus cpu) sc r q t with h | h
            · rw [h]
            · rw [if_neg (fun hcontra =>
                hp ((congrArg Intermediate.pid_tgid h).symm.trans hcontra).symm)]
              omega
          omega
      · have hC : isCreditAt cfg s c p (Event.sysExit cpu sc r q t) = false := by
          simp only [isCreditAt]
          rw [decide_eq_false (fun h => hc h.symm), Bool.false_and, Bool.false_and]
        have hA : slotFlag c p (step cfg s (Event.sysExit cpu sc r q t)) = slotFlag c p s := by
          unfold slotFlag
          rw [hst, if_neg hc]
        rw [hC, flag_of_false, hA]
  | schedFork ppid cpid =>
      have hca : isCreditAt cfg s c p (Event.schedFork ppid cpid) = false := rfl
      have hen : isEnterAt c p (Event.schedFork ppid cpid) = false := rfl
      have hA : slotFlag c p (step cfg s (Event.schedFork ppid cpid)) = slotFlag c p s := by
        unfold slotFlag
        rw [step_cpus_schedFork]
      rw [hca, hen, hA]
  | schedExit q =>
      have hca : isCreditAt cfg s c p (Event.schedExit q) = false := rfl
      have hen : isEnterAt c p (Event.schedExit q) = false := rfl
      have hA : slotFlag c p (step cfg s (Event.schedExit q)) = slotFlag c p s := by
        unfold slotFlag
        rw [step_cpus_schedExit]
      rw [hca, hen, hA]

theorem entryCount_cons (c p : Nat) (e : Event) (es : List Event) :
    entryCount c p (e :: es)
      = (if isEnterAt c p e then 1 else 0) + entryCount c p es := by
  unfold entryCount
  rw [List.filter_cons]
  split <;> simp [List.length_cons]
  omega

theorem creditCount_le_aux (cfg : Config) (c p : Nat) (hp : p ≠ 0) :
    ∀ (es : List Event) (s : SysState),
      creditCount cfg s c p es ≤ entryCount c p es + slotFlag c p s := by
  intro es
  induction es with
  | nil => intro s; simp [creditCount, entryCount]
  | cons e es ih =>
      intro s
      have h1 := ih (step cfg s e)
      have h2 := credit_entry_step cfg c p hp s e
      rw [creditCount, entryCount_cons]
      omega

theorem slotFlag_run_le (cfg : Config) (c p : Nat) (hp : p ≠ 0) :
    ∀ (es : List Event) (s : SysState),
      slotFlag c p (run cfg s es) ≤ entryCount c p es + slotFlag c p s := by
  intro es
  induction es with
  | nil => intro s; simp [run, entryCount]
  | cons e es ih =>
      intro s
      have h1 := ih (step cfg s e)
      have h2 := credit_entry_step cfg c p hp s e
      rw [run, entryCount_cons]
      omega

/-! ### Lemmas about the tracked-process set -/

theorem step_children_grow {cfg : Config} {root : Nat} {s : SysState} {e : Event}
    {x : Nat} (hf : cfg.follow = true) (hr : cfg.tracePid = some root)
    (hmem : x ∈ (step cfg s e).children) (hnew : x ∉ s.children) :
    ∃ ppid, e = Event.schedFork ppid x ∧ (ppid = root ∨ ppid ∈ s.children) := by
  cases e with
  | sysEnter cpu q t =>
      rw [step_children_sysEnter] at hmem
      exact absurd hmem hnew
  | sysExit cpu sc r q t =>
      rw [step_children_sysExit] at hmem
      exact absurd hmem hnew
  | schedFork ppid cpid =>
      have hch : (step cfg s (Event.schedFork ppid cpid)).children
          = sched_process_fork root s.children ppid cpid := by
        simp [step, hf, hr]
      rw [hch] at hmem
      unfold sched_process_fork at hmem
      by_cases hg : ppid ≠ root ∧ ppid ∉ s.children
      · rw [if_pos hg] at hmem
        exact absurd hmem hnew
      · rw [if_neg hg] at hmem
        rcases Finset.mem_insert.mp hmem with h | h
        · refine ⟨ppid, by rw [h], ?_⟩
          by_cases hroot : ppid = root
          · exact Or.inl hroot
          · exact Or.inr (by_contra fun hnm => hg ⟨hroot, hnm⟩)
        · exact absurd h hnew
  | schedExit q =>
      have hch : (step cfg s (Event.schedExit q)).children
          = sched_process_exit root s.children q := by
        simp [step, hf, hr]
      rw [hch] at hmem
      unfold sched_process_exit at hmem
      by_cases hg : pidOf q ≠ root ∧ pidOf q ∉ s.children
      · rw [if_pos hg] at hmem
        exact absurd hmem hnew
      · rw [if_neg hg] at hmem
        exact absurd (Finset.mem_of_mem_erase hmem) hnew

theorem step_children_shrink {cfg : Config} {root : Nat} {s : SysState} {e : Event}
    {z : Nat} (hf : cfg.follow = true) (hr : cfg.tracePid = some root)
    (hz : z ∈ s.children) (hz' : z ∉ (step cfg s e).children) :
    ∃ pt, e = Event.schedExit pt ∧ pidOf pt = z := by
  cases e with
  | sysEnter cpu q t =>
      rw [step_children_sysEnter] at hz'
      exact absurd hz hz'
  | sysExit cpu sc r q t =>
      rw [step_children_sysExit] at hz'
      exact absurd hz hz'
  | schedFork ppid cpid =>
      have hch : (step cfg s (Event.schedFork ppid cpid)).children
          = sched_process_fork root s.children ppid cpid := by
        simp [step, hf, hr]
      rw [hch] at hz'
      unfold sched_process_fork at hz'
      by_cases hg : ppid ≠ root ∧ ppid ∉ s.children
      · rw [if_pos hg] at hz'
        exact absurd hz hz'
      · rw [if_neg hg] at hz'
        exact absurd (Finset.mem_insert_of_mem hz) hz'
  | schedExit q =>
      refine ⟨q, rfl, ?_⟩
      have hch : (step cfg s (Event.schedExit q)).children
          = sched_process_exit root s.children q := by
        simp [step, hf, hr]
      rw [hch] at hz'
      unfold sched_process_exit at hz'
      by_cases hg : pidOf q ≠ root ∧ pidOf q ∉ s.children
      · rw [if_pos hg] at hz'
        exact absurd hz hz'
      · rw [if_neg hg] at hz'
        by_contra hne
        exact hz' (Finset.mem_erase.mpr ⟨fun h => hne h.symm, hz⟩)

theorem run_children_origin {cfg : Config} {root : Nat}
    (hf : cfg.follow = true) (hr : cfg.tracePid = some root) :
    ∀ (es : List Event) (y : Nat), y ∈ (run cfg initState es).children →
      ∃ es₁ ppid es₂, es = es₁ ++ Event.schedFork ppid y :: es₂
        ∧ (ppid = root ∨ ppid ∈ (run cfg initState es₁).children) := by
  intro es
  induction es using List.reverseRecOn with
  | nil =>
      intro y hy
      exact absurd hy (Finset.not_mem_empty y)
  | append_singleton l e ih =>
      intro y hy
      rw [run_append] at hy
      have hy' : y ∈ (step cfg (run cfg initState l) e).children := hy
      by_cases hmem : y ∈ (run cfg initState l).children
      · obtain ⟨es₁, ppid, es₂, heq, hg⟩ := ih y hmem
        refine ⟨es₁, ppid, es₂ ++ [e], ?_, hg⟩
        rw [heq]
        simp
      · obtain ⟨ppid, he, hg⟩ := step_children_grow hf hr hy' hmem
        exact ⟨l, ppid, [], by rw [he], hg⟩

/-! ### The restart pseudo-call's counter stays zero -/

theorem step_restart_zero (cfg : Config) (s : SysState) (e : Event)
    (h : ∀ c, (s.cpus c).syscalls NR_restart_syscall = { count := 0, overhead := 0 }) :
    ∀ c, ((step cfg s e).cpus c).syscalls NR_restart_syscall
      = { count := 0, overhead := 0 } := by
  intro c
  cases e with
  | sysEnter cpu q t =>
      have hst : (step cfg s (Event.sysEnter cpu q t)).cpus c
          = if c = cpu then do_sysenter cfg s.children (s.cpus cpu) q t
            else s.cpus c := rfl
      rw [hst]
      by_cases hc : c = cpu
      · rw [if_pos hc, congrFun (do_sysenter_syscalls cfg s.children (s.cpus cpu) q t)
          NR_restart_syscall]
        exact h cpu
      · rw [if_neg hc]
        exact h c
  | sysExit cpu sc r q t =>
      have hst : (step cfg s (Event.sysExit cpu sc r q t)).cpus c
          = if c = cpu then do_sysexit cfg s.children (s.cpus cpu) sc r q t
            else s.cpus c := rfl
      rw [hst]
      by_cases hc : c = cpu
      · rw [if_pos hc]
        rcases do_sysexit_main_cases cfg s.children (s.cpus cpu) sc r q t with
          ⟨hcr, he⟩ | ⟨_, he⟩ | ⟨_, _, he⟩
        · rw [he]
          have hne : sc ≠ NR_restart_syscall := (sysexitCredits_spec hcr).1
          show (if NR_restart_syscall = sc then _ else (s.cpus cpu).syscalls
            NR_restart_syscall) = _
          rw [if_neg fun hh => hne hh.symm]
          exact h cpu
        · rw [he]
          exact h cpu
        · rw [he]
          exact h cpu
      · rw [if_neg hc]
        exact h c
  | schedFork ppid cpid =>
      rw [congrFun (step_cpus_schedFork cfg s ppid cpid) c]
      exact h c
  | schedExit q =>
      rw [congrFun (step_cpus_schedExit cfg s q) c]
      exact h c

theorem run_restart_zero (cfg : Config) :
    ∀ (es : List Event) (s : SysState),
      (∀ c, (s.cpus c).syscalls NR_restart_syscall = { count := 0, overhead := 0 }) →
      ∀ c, ((run cfg s es).cpus c).syscalls NR_restart_syscall
        = { count := 0, overhead := 0 } := by
  intro es
  induction es with
  | nil => intro s h c; exact h c
  | cons e es ih =>
      intro s h c
      exact ih (step cfg s e) (step_restart_zero cfg s e h) c

/-! ### Steps that change nothing -/

theorem step_sysEnter_eq (cfg : Config) (s : SysState) (cpu pid_tgid now : Nat)
    (h : do_sysenter cfg s.children (s.cpus cpu) pid_tgid now = s.cpus cpu) :
    step cfg s (Event.sysEnter cpu pid_tgid now) = s := by
  have hfun : (fun c => if c = cpu
      then do_sysenter cfg s.children (s.cpus cpu) pid_tgid now
      else s.cpus c) = s.cpus := by
    funext c
    by_cases hc : c = cpu
    · rw [if_pos hc, h, hc]
    · rw [if_neg hc]
  show SysState.mk _ s.children = s
  rw [hfun]

theorem step_sysExit_eq (cfg : Config) (s : SysState) (cpu syscall : Nat)
    (ret : Int) (pid_tgid now : Nat)
    (h : do_sysexit cfg s.children (s.cpus cpu) syscall ret pid_tgid now = s.cpus cpu) :
    step cfg s (Event.sysExit cpu syscall ret pid_tgid now) = s := by
  have hfun : (fun c => if c = cpu
      then do_sysexit cfg s.children (s.cpus cpu) syscall ret pid_tgid now
      else s.cpus c) = s.cpus := by
    funext c
    by_cases hc : c = cpu
    · rw [if_pos hc, h, hc]
    · rw [if_neg hc]
  show SysState.mk _ s.children = s
  rw [hfun]

theorem selfDiscard_enter {cfg : Config} (ch : Finset Nat) {pid_tgid : Nat}
    (h : pid_tgid >>> 32 = cfg.bpfbenchPid) :
    enterScopeDiscard cfg ch pid_tgid = true := by
  unfold enterScopeDiscard
  rw [decide_eq_true h, Bool.or_true]

theorem selfDiscard_sysexit {cfg : Config} (ch : Finset Nat) {pid_tgid : Nat}
    (h : pid_tgid >>> 32 = cfg.bpfbenchPid) :
    exitScopeDiscard cfg ch pid_tgid = true := by
  unfold exitScopeDiscard
  rw [decide_eq_true h, Bool.or_true]

theorem credit_result_at {cfg : Config} {ch : Finset Nat} {st : CPUState}
    {syscall : Nat} {ret : Int} {pid_tgid : Nat} (now : Nat)
    (hcr : sysexitCredits cfg ch st syscall ret pid_tgid = true) :
    (do_sysexit cfg ch st syscall ret pid_tgid now).syscalls syscall
      = { count := u64add (st.syscalls syscall).count 1,
          overhead := u64add (st.syscalls syscall).overhead
            (u64sub now st.intermediate.start_time) } := by
  rw [do_sysexit_credit now hcr]
  exact if_pos rfl

theorem credit_result_other {cfg : Config} {ch : Finset Nat} {st : CPUState}
    {syscall : Nat} {ret : Int} {pid_tgid : Nat} (now n : Nat)
    (hcr : sysexitCredits cfg ch st syscall ret pid_tgid = true)
    (hn : n ≠ syscall) :
    (do_sysexit cfg ch st syscall ret pid_tgid now).syscalls n = st.syscalls n := by
  rw [do_sysexit_credit now hcr]
  exact if_neg hn

/-! ### The claims -/

/-- C1: over any event trace from the initial state, for a processor `c` and
a nonzero caller identity `p`, the number of credited syscalls never exceeds
the number of entry events observed on that processor for that identity
(each call is credited at most once); moreover, whenever a credit fires, the
processor's scratch slot records exactly the caller's identity and at least
one entry event for that identity was observed earlier on that same
processor. -/
theorem credited_at_most_once_and_matched (cfg : Config)
    (es₁ es₂ : List Event) (c p syscall : Nat) (ret : Int) (now : Nat)
    (hp : p ≠ 0)
    (hcr : isCreditAt cfg (run cfg initState es₁) c p
      (Event.sysExit c syscall ret p now) = true) :
    creditCount cfg initState c p (es₁ ++ Event.sysExit c syscall ret p now :: es₂)
      ≤ entryCount c p (es₁ ++ Event.sysExit c syscall ret p now :: es₂)
    ∧ ((run cfg initState es₁).cpus c).intermediate.pid_tgid = p
    ∧ 1 ≤ entryCount c p es₁ := by
  have hflag0 : slotFlag c p initState = 0 := if_neg (fun h => hp h.symm)
  have hcred : sysexitCredits cfg (run cfg initState es₁).children
      ((run cfg initState es₁).cpus c) syscall ret p = true := by
    simpa [isCreditAt] using hcr
  have hslot : ((run cfg initState es₁).cpus c).intermediate.pid_tgid = p :=
    ((sysexitCredits_spec hcred).2.2.2.2).symm
  have h1 := creditCount_le_aux cfg c p hp
    (es₁ ++ Event.sysExit c syscall ret p now :: es₂) initState
  have h2 := slotFlag_run_le cfg c p hp es₁ initState
  have h3 : slotFlag c p (run cfg initState es₁) = 1 := slotFlag_eq_one hslot
  exact ⟨by omega, hslot, by omega⟩

/-- C1 witness: a concrete system-wide trace in which one entry and one
matching exit on processor 0 credit the call exactly once. -/
theorem credited_at_most_once_and_matched_witness :
    creditCount cfgSys initState 0 (2 <<< 32)
        ([Event.sysEnter 0 (2 <<< 32) 10] ++ Event.sysExit 0 1 0 (2 <<< 32) 15 :: [])
      ≤ entryCount 0 (2 <<< 32)
        ([Event.sysEnter 0 (2 <<< 32) 10] ++ Event.sysExit 0 1 0 (2 <<< 32) 15 :: [])
    ∧ ((run cfgSys initState [Event.sysEnter 0 (2 <<< 32) 10]).cpus 0).intermediate.pid_tgid
        = 2 <<< 32
    ∧ 1 ≤ entryCount 0 (2 <<< 32) [Event.sysEnter 0 (2 <<< 32) 10] :=
  credited_at_most_once_and_matched cfgSys [Event.sysEnter 0 (2 <<< 32) 10] []
    0 (2 <<< 32) 1 0 15 (by decide) (by decide)

/-- C2: whenever the exit hook reaches its credit step, it increments the
matching counter's count by exactly one, adds exactly `now` minus the
scratch slot's start time to its overhead (a positive delta under a
monotonic clock and no 64-bit wrap-around), and changes no other counter
record, on this processor or any other. -/
theorem credit_increments_exactly (cfg : Config) (s : SysState)
    (cpu syscall : Nat) (ret : Int) (pid_tgid now n c : Nat)
    (hcr : sysexitCredits cfg s.children (s.cpus cpu) syscall ret pid_tgid = true)
    (hmono : (s.cpus cpu).intermediate.start_time < now)
    (hnow : now < U64)
    (hcnt : ((s.cpus cpu).syscalls syscall).count + 1 < U64)
    (hov : ((s.cpus cpu).syscalls syscall).overhead
        + (now - (s.cpus cpu).intermediate.start_time) < U64)
    (hn : n ≠ syscall) (hc : c ≠ cpu) :
    (((step cfg s (Event.sysExit cpu syscall ret pid_tgid now)).cpus cpu).syscalls
        syscall).count
      = ((s.cpus cpu).syscalls syscall).count + 1
    ∧ (((step cfg s (Event.sysExit cpu syscall ret pid_tgid now)).cpus cpu).syscalls
        syscall).overhead
      = ((s.cpus cpu).syscalls syscall).overhead
        + (now - (s.cpus cpu).intermediate.start_time)
    ∧ 0 < now - (s.cpus cpu).intermediate.start_time
    ∧ ((step cfg s (Event.sysExit cpu syscall ret pid_tgid now)).cpus cpu).syscalls n
      = (s.cpus cpu).syscalls n
    ∧ (step cfg s (Event.sysExit cpu syscall ret pid_tgid now)).cpus c = s.cpus c := by
  have hst : (step cfg s (Event.sysExit cpu syscall ret pid_tgid now)).cpus cpu
      = do_sysexit cfg s.children (s.cpus cpu) syscall ret pid_tgid now := if_pos rfl
  refine ⟨?_, ?_, by omega, ?_, ?_⟩
  · rw [hst, credit_result_at now hcr]
    exact u64add_eq hcnt
  · rw [hst, credit_result_at now hcr]
    show u64add ((s.cpus cpu).syscalls syscall).overhead
      (u64sub now (s.cpus cpu).intermediate.start_time) = _
    rw [u64sub_eq (le_of_lt hmono) hnow]
    exact u64add_eq hov
  · rw [hst]
    exact credit_result_other now n hcr hn
  · exact if_neg hc

/-- C2 witness: a concrete credit on processor 0 for syscall 1 with start
time 5 and exit time 9 increments the count from 0 to 1. -/
theorem credit_increments_exactly_witness :
    (((step cfgSys sW (Event.sysExit 0 1 0 (2 <<< 32) 9)).cpus 0).syscalls 1).count
      = (((sW.cpus 0)).syscalls 1).count + 1 :=
  (credit_increments_exactly cfgSys sW 0 1 0 (2 <<< 32) 9 2 1 (by decide) (by decide)
    (by decide) (by decide) (by decide) (by decide) (by decide)).1

/-- C3: an exit event whose caller identity differs from the identity stored
in the scratch slot never reaches the credit step and leaves every counter
record unchanged. -/
theorem identity_mismatch_discards (cfg : Config) (ch : Finset Nat)
    (st : CPUState) (syscall : Nat) (ret : Int) (pid_tgid now n : Nat)
    (hm : pid_tgid ≠ st.intermediate.pid_tgid) :
    sysexitCredits cfg ch st syscall ret pid_tgid = false
    ∧ (do_sysexit cfg ch st syscall ret pid_tgid now).syscalls n = st.syscalls n := by
  have hfalse : sysexitCredits cfg ch st syscall ret pid_tgid = false := by
    unfold sysexitCredits
    rw [decide_eq_false hm, Bool.and_false]
  exact ⟨hfalse, do_sysexit_nocredit_syscalls now hfalse n⟩

/-- C3 witness: a concrete mismatched exit (caller tgid 3 against a slot
recording tgid 2) changes no counter. -/
theorem identity_mismatch_discards_witness :
    sysexitCredits cfgSys ∅ stW 1 0 (3 <<< 32) = false
    ∧ (do_sysexit cfgSys ∅ stW 1 0 (3 <<< 32) 9).syscalls 1 = stW.syscalls 1 :=
  identity_mismatch_discards cfgSys ∅ stW 1 0 (3 <<< 32) 9 1 (by decide)

/-- C4: the reserved restart pseudo-call is discarded before crediting, so
its counter record is zero in every reachable state, and an exit event for
it leaves the whole engine state unchanged. -/
theorem restart_pseudocall_never_credited (cfg : Config) (es : List Event)
    (c : Nat) (s : SysState) (ret : Int) (p now : Nat) :
    ((run cfg initState es).cpus c).syscalls NR_restart_syscall
        = { count := 0, overhead := 0 }
    ∧ step cfg s (Event.sysExit c NR_restart_syscall ret p now) = s := by
  constructor
  · exact run_restart_zero cfg es initState (fun _ => rfl) c
  · exact step_sysExit_eq cfg s c NR_restart_syscall ret p now
      (do_sysexit_of_restart ret p now rfl)

/-- C5: an exit event whose return value is one of the kernel's
will-be-restarted sentinel codes is discarded, leaving the whole
per-processor state unchanged. -/
theorem restart_sentinel_discards_event (cfg : Config) (ch : Finset Nat)
    (st : CPUState) (syscall : Nat) (ret : Int) (pid_tgid now : Nat)
    (hr : ret = -ERESTARTSYS ∨ ret = -ERESTARTNOHAND ∨ ret = -ERESTARTNOINTR
        ∨ ret = -ERESTART_RESTARTBLOCK) :
    do_sysexit cfg ch st syscall ret pid_tgid now = st := by
  by_cases h1 : syscall = NR_restart_syscall
  · exact do_sysexit_of_restart ret pid_tgid now h1
  · unfold do_sysexit
    rw [if_neg h1, if_pos hr]

/-- C5 witness: a concrete exit returning `-ERESTARTSYS` is discarded. -/
theorem restart_sentinel_discards_event_witness :
    do_sysexit cfgSys ∅ stW 1 (-512) (2 <<< 32) 9 = stW :=
  restart_sentinel_discards_event cfgSys ∅ stW 1 (-512) (2 <<< 32) 9 (Or.inl rfl)

/-- C6 counterexample: an exit event for an out-of-range syscall number is
discarded (it never reaches the credit step), yet it does not leave the
scratch slot unchanged: the slot is cleared to zero.  This refutes the claim
that every discard branch leaves all engine state exactly as it was. -/
theorem discard_clears_scratch_cex :
    sysexitCredits cfgSys sW.children (sW.cpus 0) 4 0 (2 <<< 32) = false
    ∧ (do_sysexit cfgSys sW.children (sW.cpus 0) 4 0 (2 <<< 32) 9).intermediate
        ≠ (sW.cpus 0).intermediate :=
  ⟨by decide, by decide⟩

/-- C6 amended: every discard branch leaves the counter table and the
tracked-process set unchanged, and the entry hook's, fork hook's and
process-exit hook's discard branches leave all state unchanged; an exit-hook
discard also leaves the scratch slot unchanged except when the counter
lookup fails (syscall number out of range) while the scratch slot is
present, in which case the slot is cleared to zero. -/
theorem discard_effects_amended (cfg : Config) (ch : Finset Nat) (st : CPUState)
    (syscall : Nat) (ret : Int) (pid_tgid now n q t tracePid ppid cpid pe : Nat)
    (s : SysState)
    (hnc : sysexitCredits cfg ch st syscall ret pid_tgid = false)
    (hq : enterScopeDiscard cfg ch q = true)
    (hfork : ppid ≠ tracePid ∧ ppid ∉ ch)
    (hpe : pidOf pe ≠ tracePid ∧ pidOf pe ∉ ch) :
    (do_sysexit cfg ch st syscall ret pid_tgid now).syscalls n = st.syscalls n
    ∧ ((do_sysexit cfg ch st syscall ret pid_tgid now).intermediate = st.intermediate
        ∨ (¬ syscall < cfg.numSyscalls
            ∧ (do_sysexit cfg ch st syscall ret pid_tgid now).intermediate
                = { pid_tgid := 0, start_time := 0 }))
    ∧ (step cfg s (Event.sysExit 0 syscall ret pid_tgid now)).children = s.children
    ∧ do_sysenter cfg ch st q t = st
    ∧ sched_process_fork tracePid ch ppid cpid = ch
    ∧ sched_process_exit tracePid ch pe = ch := by
  refine ⟨do_sysexit_nocredit_syscalls now hnc n, ?_, rfl,
    do_sysenter_of_discard t hq, ?_, ?_⟩
  · rcases do_sysexit_main_cases cfg ch st syscall ret pid_tgid now with
      ⟨ht, _⟩ | ⟨_, he⟩ | ⟨_, hb, he⟩
    · rw [hnc] at ht; cases ht
    · rw [he]; exact Or.inl rfl
    · rw [he]; exact Or.inr ⟨hb, rfl⟩
  · unfold sched_process_fork
    rw [if_pos hfork]
  · unfold sched_process_exit
    rw [if_pos hpe]

/-- C6 amended witness: a concrete out-of-range exit leaves every counter
unchanged (and the remaining conjuncts hold at concrete inputs). -/
theorem discard_effects_amended_witness :
    (do_sysexit cfgSys ∅ stW 4 0 (2 <<< 32) 9).syscalls 0 = stW.syscalls 0 :=
  (discard_effects_amended cfgSys ∅ stW 4 0 (2 <<< 32) 9 0 (1 <<< 32) 3 5 9 10
    (9 <<< 32) sW (by decide) (by decide) (by decide) (by decide)).1

/-- C7: entry and exit events whose caller's process id equals the tool's
own configured process id `BPFBENCH_PID` are discarded by both hooks and
leave the whole engine state (hence every counter) unchanged. -/
theorem self_events_leave_state_unchanged (cfg : Config) (s : SysState)
    (cpu syscall : Nat) (ret : Int) (pid_tgid now : Nat)
    (hself : pid_tgid >>> 32 = cfg.bpfbenchPid) :
    step cfg s (Event.sysEnter cpu pid_tgid now) = s
    ∧ step cfg s (Event.sysExit cpu syscall ret pid_tgid now) = s := by
  constructor
  · exact step_sysEnter_eq cfg s cpu pid_tgid now
      (do_sysenter_of_discard now (selfDiscard_enter s.children hself))
  · exact step_sysExit_eq cfg s cpu syscall ret pid_tgid now
      (do_sysexit_of_scope syscall ret now (selfDiscard_sysexit s.children hself))

/-- C7 witness: concrete events from the tool's own pid (1) change
nothing. -/
theorem self_events_leave_state_unchanged_witness :
    step cfgSys sW (Event.sysEnter 0 (1 <<< 32) 9) = sW
    ∧ step cfgSys sW (Event.sysExit 0 1 0 (1 <<< 32) 9) = sW :=
  self_events_leave_state_unchanged cfgSys sW 0 1 0 (1 <<< 32) 9 (by decide)

/-- C8: in tree-following mode the tracked set grows only when the fork hook
sees a child whose parent is the root or already a member (inserting the
child's id), shrinks only when the process-exit hook sees a member's own
termination (removing that id), and consequently every member of a reachable
tracked set was inserted by a fork event whose parent was the root or a
member at that moment. -/
theorem tracked_set_growth_shrink_origin (cfg : Config) (root : Nat)
    (e e' : Event) (s s' : SysState) (x z y : Nat) (es : List Event)
    (hf : cfg.follow = true) (hr : cfg.tracePid = some root)
    (hgrow : x ∈ (step cfg s e).children) (hnew : x ∉ s.children)
    (hz : z ∈ s'.children) (hz' : z ∉ (step cfg s' e').children)
    (hy : y ∈ (run cfg initState es).children) :
    (∃ ppid, e = Event.schedFork ppid x ∧ (ppid = root ∨ ppid ∈ s.children))
    ∧ (∃ pt, e' = Event.schedExit pt ∧ pidOf pt = z)
    ∧ (∃ es₁ ppid es₂, es = es₁ ++ Event.schedFork ppid y :: es₂
        ∧ (ppid = root ∨ ppid ∈ (run cfg initState es₁).children)) :=
  ⟨step_children_grow hf hr hgrow hnew, step_children_shrink hf hr hz hz',
    run_children_origin hf hr es y hy⟩

/-- C8 witness: with root 5, a fork of child 7 by the root adds 7, the exit
of 7 removes it, and 7's membership traces back to that fork event. -/
theorem tracked_set_growth_shrink_origin_witness :
    (∃ ppid, Event.schedFork 5 7 = Event.schedFork ppid 7
      ∧ (ppid = 5 ∨ ppid ∈ initState.children))
    ∧ (∃ pt, Event.schedExit (7 <<< 32) = Event.schedExit pt ∧ pidOf pt = 7)
    ∧ (∃ es₁ ppid es₂, [Event.schedFork 5 7] = es₁ ++ Event.schedFork ppid 7 :: es₂
        ∧ (ppid = 5 ∨ ppid ∈ (run cfgFollow initState es₁).children)) :=
  tracked_set_growth_shrink_origin cfgFollow 5 (Event.schedFork 5 7)
    (Event.schedExit (7 <<< 32)) initState
    (step cfgFollow initState (Event.schedFork 5 7)) 7 7 7 [Event.schedFork 5 7]
    rfl rfl (by decide) (by decide) (by decide) (by decide) (by decide)

/-- C9: the scope-filter predicate evaluated by the exit hook is identical
to the one evaluated by the entry hook: for every configuration, tracked-set
state and caller identity, both hooks reach the same discard-or-proceed
decision. -/
theorem scope_filters_agree (cfg : Config) (ch : Finset Nat) (pid_tgid : Nat) :
    exitScopeDiscard cfg ch pid_tgid = enterScopeDiscard cfg ch pid_tgid := rfl

/-- C10: the entry hook's missing-scratch-slot branch is unreachable: the
lookup at the fixed index 0 into the size-1 per-processor array always
succeeds, so every entry event that passes the scope filters writes the
caller identity and start time into the slot. -/
theorem enter_scratch_lookup_always_succeeds (cfg : Config) (ch : Finset Nat)
    (st : CPUState) (pid_tgid now : Nat)
    (hpass : enterScopeDiscard cfg ch pid_tgid = false) :
    intermediateLookup st 0 = some st.intermediate
    ∧ (do_sysenter cfg ch st pid_tgid now).intermediate
        = { pid_tgid := pid_tgid, start_time := now } := by
  refine ⟨intermediateLookup_zero st, ?_⟩
  rw [do_sysenter_of_pass now hpass]

/-- C10 witness: a concrete in-scope entry writes its identity and start
time into the slot. -/
theorem enter_scratch_lookup_always_succeeds_witness :
    intermediateLookup stW 0 = some stW.intermediate
    ∧ (do_sysenter cfgSys ∅ stW (2 <<< 32) 7).intermediate
        = { pid_tgid := 2 <<< 32, start_time := 7 } :=
  enter_scratch_lookup_always_succeeds cfgSys ∅ stW (2 <<< 32) 7 (by decide)

end BpfBench
